import Mathlib

/-!
Verification of the robusta relay receiver
(`src/robusta/integrations/receiver.py`).

The development shallowly embeds the receiver's code:

* `Crypto`: byte-level SHA-256, HMAC-SHA256 and hex encoding (models of
  Python's `hashlib.sha256`, `hmac.new(...).hexdigest()`), plus UTF-8
  encoding (`str.encode`). Bytes are `Nat` values below 256, 32-bit words
  are `Nat` values reduced mod 2^32.
* `Robusta.Json` with a Python-style serializer (`json.dumps` defaults:
  `ensure_ascii`, separator strings with a space) and a Python-style parser
  (`json.loads`); both are fuel-based structural recursions so that the
  kernel can evaluate them on concrete inputs.
* the data model (`ActionRequestBody`, `ActionRequest`) and
  `validate_request`, the embedding of `ActionRequestReceiver.__validate_request`;
* `processEvent` / `on_message`, the embedding of
  `ActionRequestReceiver.on_message`, with dispatch calls recorded in the
  result and the injected handler's failure behaviour passed as an oracle;
* a labelled transition system for the `run_forever` / `stop` loop.

Modelling notes, recorded once here: Python `time.time()` is passed as an
integer `now` (every claim is about integer-second arithmetic);
`INCOMING_REQUEST_TIME_WINDOW_SECONDS` is the parameter `window`;
`get_global_config().get("signing_key")` is the parameter
`signingKey : Option String` (`none` = key missing). pydantic v1's lenient
coercions (numbers to strings, strings to numbers, bools to ints) are not
modelled; no claim depends on them. JSON floats are not modelled (no claim
involves a non-integer number).
-/

namespace Crypto

/-- 2^32, the word modulus of SHA-256. -/
def w32 : Nat := 4294967296

/-- Right rotation of a 32-bit word. -/
def rotr (n x : Nat) : Nat := ((x >>> n) ||| (x <<< (32 - n))) % w32

/-- The 64 SHA-256 round constants of FIPS 180-4 (the fractional bits of
the cube roots of the first 64 primes), written in decimal; the test
vectors below check the table. -/
def K : List Nat :=
  [1116352408, 1899447441, 3049323471, 3921009573, 961987163, 1508970993,
   2453635748, 2870763221, 3624381080, 310598401, 607225278, 1426881987,
   1925078388, 2162078206, 2614888103, 3248222580, 3835390401, 4022224774,
   264347078, 604807628, 770255983, 1249150122, 1555081692, 1996064986,
   2554220882, 2821834349, 2952996808, 3210313671, 3336571891, 3584528711,
   113926993, 338241895, 666307205, 773529912, 1294757372, 1396182291,
   1695183700, 1986661051, 2177026350, 2456956037, 2730485921, 2820302411,
   3259730800, 3345764771, 3516065817, 3600352804, 4094571909, 275423344,
   430227734, 506948616, 659060556, 883997877, 958139571, 1322822218,
   1537002063, 1747873779, 1955562222, 2024104815, 2227730452, 2361852424,
   2428436474, 2756734187, 3204031479, 3329325298]

/-- The initial SHA-256 hash state of FIPS 180-4 (the fractional bits of
the square roots of the first 8 primes), in decimal. -/
def H0 : List Nat :=
  [1779033703, 3144134277, 1013904242, 2773480762,
   1359893119, 2600822924, 528734635, 1541459225]

/-- Big-endian bytes of a value, `n` bytes wide. -/
def natToBytesBE : Nat → Nat → List Nat
  | 0, _ => []
  | n+1, v => natToBytesBE n (v / 256) ++ [v % 256]

/-- SHA-256 message padding: append 0x80, zeros to 56 mod 64, then the
64-bit big-endian bit length. -/
def padMessage (msg : List Nat) : List Nat :=
  let l := msg.length
  let k := (55 + 64 - l % 64) % 64
  msg ++ [0x80] ++ List.replicate k 0 ++ natToBytesBE 8 (l * 8)

/-- Split a byte list into 64-byte chunks; the fuel (an upper bound on the
number of chunks) keeps the recursion structural so the kernel can run it. -/
def chunks64Go : Nat → List Nat → List (List Nat)
  | 0, _ => []
  | _, [] => []
  | n+1, l => l.take 64 :: chunks64Go n (l.drop 64)

/-- Split a byte list into 64-byte chunks. -/
def chunks64 (l : List Nat) : List (List Nat) := chunks64Go l.length l

/-- Group bytes into big-endian 32-bit words. -/
def chunkWords : List Nat → List Nat
  | a :: b :: c :: d :: rest => (((a * 256 + b) * 256 + c) * 256 + d) :: chunkWords rest
  | _ => []

/-- One step of message-schedule extension: append the next word. -/
def extendStep (w : List Nat) : List Nat :=
  let i := w.length
  let x15 := w.getD (i - 15) 0
  let x2 := w.getD (i - 2) 0
  let s0 := (rotr 7 x15) ^^^ (rotr 18 x15) ^^^ (x15 >>> 3)
  let s1 := (rotr 17 x2) ^^^ (rotr 19 x2) ^^^ (x2 >>> 10)
  w ++ [(w.getD (i - 16) 0 + s0 + w.getD (i - 7) 0 + s1) % w32]

/-- Iterate schedule extension `n` times. -/
def extendIter : Nat → List Nat → List Nat
  | 0, w => w
  | n+1, w => extendIter n (extendStep w)

/-- Extend the 16-word schedule to 64 words. -/
def extendW (w : List Nat) : List Nat := extendIter 48 w

/-- One SHA-256 compression round on the 8-word state. -/
def compressRound (st : List Nat) (k w : Nat) : List Nat :=
  let a := st.getD 0 0
  let b := st.getD 1 0
  let c := st.getD 2 0
  let d := st.getD 3 0
  let e := st.getD 4 0
  let f := st.getD 5 0
  let g := st.getD 6 0
  let h := st.getD 7 0
  let S1 := (rotr 6 e) ^^^ (rotr 11 e) ^^^ (rotr 25 e)
  let ch := (e &&& f) ^^^ ((e ^^^ 0xffffffff) &&& g)
  let t1 := (h + S1 + ch + k + w) % w32
  let S0 := (rotr 2 a) ^^^ (rotr 13 a) ^^^ (rotr 22 a)
  let maj := (a &&& b) ^^^ (a &&& c) ^^^ (b &&& c)
  let t2 := (S0 + maj) % w32
  [(t1 + t2) % w32, a, b, c, (d + t1) % w32, e, f, g]

/-- Process one 64-byte chunk into the running hash state. -/
def processChunk (h : List Nat) (chunk : List Nat) : List Nat :=
  let ws := extendW (chunkWords chunk)
  let st := (ws.zip K).foldl (fun st p => compressRound st p.2 p.1) h
  (h.zip st).map (fun p => (p.1 + p.2) % w32)

/-- SHA-256 of a byte list, as its 32 digest bytes. -/
def sha256 (msg : List Nat) : List Nat :=
  ((chunks64 (padMessage msg)).foldl processChunk H0).flatMap (natToBytesBE 4)

/-- HMAC-SHA256 (block size 64), as its 32 digest bytes — the model of
`hmac.new(key, msg, hashlib.sha256).digest()`. -/
def hmacSha256 (key msg : List Nat) : List Nat :=
  let k1 := if 64 < key.length then sha256 key else key
  let k2 := k1 ++ List.replicate (64 - k1.length) 0
  sha256 ((k2.map (fun b => b ^^^ 0x5c)) ++ sha256 ((k2.map (fun b => b ^^^ 0x36)) ++ msg))

/-- One lowercase hex digit. -/
def hexDigit (n : Nat) : Char := if n < 10 then Char.ofNat (48 + n) else Char.ofNat (87 + n)

/-- Lowercase hex encoding of a byte list (`.hexdigest()`). -/
def hexEncode (bs : List Nat) : String :=
  String.mk (bs.flatMap (fun b => [hexDigit (b / 16), hexDigit (b % 16)]))

/-- UTF-8 encoding of one character. -/
def encodeChar (c : Char) : List Nat :=
  let n := c.toNat
  if n < 128 then [n]
  else if n < 2048 then [192 + n / 64, 128 + n % 64]
  else if n < 65536 then [224 + n / 4096, 128 + (n / 64) % 64, 128 + n % 64]
  else [240 + n / 262144, 128 + (n / 4096) % 64, 128 + (n / 64) % 64, 128 + n % 64]

/-- UTF-8 bytes of a string (Python `str.encode`). -/
def strBytes (s : String) : List Nat := s.data.flatMap encodeChar

end Crypto

namespace Robusta

open Crypto

/-- A parsed JSON value, the result type of `json.loads`. `null` also stands
for Python `None`. Numbers carry only integers: no claim involves JSON
floats. -/
inductive Json where
  | null : Json
  | bool (b : Bool) : Json
  | num (n : Int) : Json
  | str (s : String) : Json
  | arr (xs : List Json) : Json
  | obj (fields : List (String × Json)) : Json

/-- The left brace character (written by code point to keep string literals
free of braces). -/
def lbrace : Char := Char.ofNat 123

/-- The right brace character. -/
def rbrace : Char := Char.ofNat 125

/-- Decimal digits of a natural number (fuel-based so it kernel-reduces). -/
def natDumpGo : Nat → Nat → List Char
  | 0, _ => []
  | f+1, v => if v < 10 then [Char.ofNat (48 + v)] else natDumpGo f (v / 10) ++ [Char.ofNat (48 + v % 10)]

/-- Decimal representation of a natural number. -/
def natDump (v : Nat) : String := String.mk (natDumpGo (v + 1) v)

/-- Python `repr` of an integer. -/
def intDump : Int → String
  | .ofNat m => natDump m
  | .negSucc m => "-" ++ natDump (m + 1)

/-- Four lowercase hex digits. -/
def hex4 (n : Nat) : List Char :=
  [hexDigit (n / 4096 % 16), hexDigit (n / 256 % 16), hexDigit (n / 16 % 16), hexDigit (n % 16)]

/-- A `\uXXXX` escape (as a surrogate pair above the basic plane), as
`json.dumps` emits with its default `ensure_ascii=True`. -/
def uEscape (n : Nat) : List Char :=
  if n < 65536 then '\\' :: 'u' :: hex4 n
  else
    let m := n - 65536
    ('\\' :: 'u' :: hex4 (55296 + m / 1024)) ++ ('\\' :: 'u' :: hex4 (56320 + m % 1024))

/-- How `json.dumps` renders one character inside a string literal:
the two-character escapes, `\uXXXX` for other characters outside
0x20–0x7e (`ensure_ascii=True`), the character itself otherwise. -/
def dumpStringChar (c : Char) : List Char :=
  if c = '"' then ['\\', '"']
  else if c = '\\' then ['\\', '\\']
  else if c.toNat = 10 then ['\\', 'n']
  else if c.toNat = 13 then ['\\', 'r']
  else if c.toNat = 9 then ['\\', 't']
  else if c.toNat = 8 then ['\\', 'b']
  else if c.toNat = 12 then ['\\', 'f']
  else if c.toNat < 32 ∨ 126 < c.toNat then uEscape c.toNat
  else [c]

/-- A JSON string literal as `json.dumps` writes it. -/
def dumpString (s : String) : String :=
  "\"" ++ String.mk (s.data.flatMap dumpStringChar) ++ "\""

mutual

/-- `json.dumps` with its default options: default separators (a space
after `:` and after `,`), `ensure_ascii=True`. -/
def jsonDump : Json → String
  | .null => "null"
  | .bool true => "true"
  | .bool false => "false"
  | .num n => intDump n
  | .str s => dumpString s
  | .arr xs => "[" ++ dumpElems xs ++ "]"
  | .obj fs => String.mk [lbrace] ++ dumpFields fs ++ String.mk [rbrace]
termination_by structural j => j

/-- Array elements, comma-space separated. -/
def dumpElems : List Json → String
  | [] => ""
  | [x] => jsonDump x
  | x :: xs => jsonDump x ++ ", " ++ dumpElems xs
termination_by structural l => l

/-- Object fields, `"key": value`, comma-space separated. -/
def dumpFields : List (String × Json) → String
  | [] => ""
  | [(k, v)] => dumpString k ++ ": " ++ jsonDump v
  | (k, v) :: fs => dumpString k ++ ": " ++ jsonDump v ++ ", " ++ dumpFields fs
termination_by structural l => l

end

/-- JSON whitespace. -/
def isWs (c : Char) : Bool := c.toNat = 32 ∨ c.toNat = 9 ∨ c.toNat = 10 ∨ c.toNat = 13

/-- Drop leading JSON whitespace. -/
def skipWs : List Char → List Char
  | [] => []
  | c :: cs => if isWs c then skipWs cs else c :: cs

/-- Value of a hex digit character. -/
def hexVal (c : Char) : Option Nat :=
  if 48 ≤ c.toNat ∧ c.toNat ≤ 57 then some (c.toNat - 48)
  else if 97 ≤ c.toNat ∧ c.toNat ≤ 102 then some (c.toNat - 87)
  else if 65 ≤ c.toNat ∧ c.toNat ≤ 70 then some (c.toNat - 55)
  else none

/-- The character named by a two-character escape. -/
def escChar (c : Char) : Option Char :=
  if c = '"' ∨ c = '\\' ∨ c = '/' then some c
  else if c = 'b' then some (Char.ofNat 8)
  else if c = 'f' then some (Char.ofNat 12)
  else if c = 'n' then some (Char.ofNat 10)
  else if c = 'r' then some (Char.ofNat 13)
  else if c = 't' then some (Char.ofNat 9)
  else none

/-- Parse the body of a JSON string literal (after the opening quote),
returning its characters and the rest of the input. Surrogate-pair
combination of adjacent `\u` escapes is not modelled (no claim uses
astral-plane escapes). -/
def parseStrChars : Nat → List Char → Option (List Char × List Char)
  | 0, _ => none
  | fuel+1, cs =>
    match cs with
    | [] => none
    | c :: rest =>
      if c = '"' then some ([], rest)
      else if c = '\\' then
        match rest with
        | [] => none
        | e :: rest2 =>
          if e = 'u' then
            match rest2 with
            | h1 :: h2 :: h3 :: h4 :: rest3 =>
              match hexVal h1, hexVal h2, hexVal h3, hexVal h4 with
              | some a, some b, some c2, some d =>
                match parseStrChars fuel rest3 with
                | some (tl, rem) => some (Char.ofNat (((a * 16 + b) * 16 + c2) * 16 + d) :: tl, rem)
                | none => none
              | _, _, _, _ => none
            | _ => none
          else
            match escChar e with
            | some ec =>
              match parseStrChars fuel rest2 with
              | some (tl, rem) => some (ec :: tl, rem)
              | none => none
            | none => none
      else
        match parseStrChars fuel rest with
        | some (tl, rem) => some (c :: tl, rem)
        | none => none

/-- Leading decimal digits of the input. -/
def takeDigits : List Char → (List Nat × List Char)
  | [] => ([], [])
  | c :: cs =>
    if 48 ≤ c.toNat ∧ c.toNat ≤ 57 then
      let p := takeDigits cs
      ((c.toNat - 48) :: p.1, p.2)
    else ([], c :: cs)

/-- Parse a JSON integer: optional minus, digits, no leading zero. A
fraction or exponent would make a Python float and is rejected (floats
unmodelled). -/
def parseNumber (cs : List Char) : Option (Int × List Char) :=
  let neg := match cs with
    | c :: _ => c = '-'
    | [] => false
  let cs2 := if neg then cs.drop 1 else cs
  match takeDigits cs2 with
  | ([], _) => none
  | (d :: ds, rest) =>
    if d = 0 ∧ ds ≠ [] then none
    else
      match rest with
      | r :: _ => if r = '.' ∨ r = 'e' ∨ r = 'E' then none else
          some (cond neg (-(((d :: ds).foldl (fun a x => a * 10 + x) 0 : Nat) : Int))
            (((d :: ds).foldl (fun a x => a * 10 + x) 0 : Nat) : Int), rest)
      | [] =>
          some (cond neg (-(((d :: ds).foldl (fun a x => a * 10 + x) 0 : Nat) : Int))
            (((d :: ds).foldl (fun a x => a * 10 + x) 0 : Nat) : Int), rest)

/-- Insert a key into an object under Python dict semantics: a repeated key
keeps its first position but takes the later value. -/
def objInsert (k : String) (v : Json) : List (String × Json) → List (String × Json)
  | [] => [(k, v)]
  | (k2, v2) :: rest => if k2 = k then (k2, v) :: rest else (k2, v2) :: objInsert k v rest

/-- Parser modes: a single value, the elements after `[`, or the fields
after the opening brace (one non-mutual recursion on fuel, so the kernel
can evaluate the parser). -/
inductive PMode where
  | value : PMode
  | arrElems (acc : List Json) : PMode
  | objFields (acc : List (String × Json)) : PMode

/-- The recursive JSON parser core. Returns the parsed value and the
remaining input, or `none` for a syntax error. -/
def parseGo : Nat → PMode → List Char → Option (Json × List Char)
  | 0, _, _ => none
  | fuel+1, .value, cs =>
    match skipWs cs with
    | [] => none
    | c :: rest =>
      if c = '"' then
        match parseStrChars (rest.length + 1) rest with
        | some (chars, rem) => some (.str (String.mk chars), rem)
        | none => none
      else if c = lbrace then
        match skipWs rest with
        | c2 :: rest2 =>
          if c2 = rbrace then some (.obj [], rest2)
          else parseGo fuel (.objFields []) (c2 :: rest2)
        | [] => none
      else if c = '[' then
        match skipWs rest with
        | c2 :: rest2 =>
          if c2 = ']' then some (.arr [], rest2)
          else parseGo fuel (.arrElems []) (c2 :: rest2)
        | [] => none
      else
        match c :: rest with
        | 't' :: 'r' :: 'u' :: 'e' :: rem => some (.bool true, rem)
        | 'f' :: 'a' :: 'l' :: 's' :: 'e' :: rem => some (.bool false, rem)
        | 'n' :: 'u' :: 'l' :: 'l' :: rem => some (.null, rem)
        | cs2 =>
          match parseNumber cs2 with
          | some (n, rem) => some (.num n, rem)
          | none => none
  | fuel+1, .arrElems acc, cs =>
    match parseGo fuel .value cs with
    | none => none
    | some (v, rem) =>
      match skipWs rem with
      | ',' :: rem2 => parseGo fuel (.arrElems (acc ++ [v])) rem2
      | c :: rem2 => if c = ']' then some (.arr (acc ++ [v]), rem2) else none
      | [] => none
  | fuel+1, .objFields acc, cs =>
    match skipWs cs with
    | c :: rest =>
      if c = '"' then
        match parseStrChars (rest.length + 1) rest with
        | some (kchars, rem) =>
          (match skipWs rem with
           | ':' :: rem2 =>
             (match parseGo fuel .value rem2 with
              | some (v, rem3) =>
                (match skipWs rem3 with
                 | ',' :: rem4 => parseGo fuel (.objFields (objInsert (String.mk kchars) v acc)) rem4
                 | c2 :: rem4 =>
                     if c2 = rbrace then some (.obj (objInsert (String.mk kchars) v acc), rem4)
                     else none
                 | [] => none)
              | none => none)
           | _ => none)
        | none => none
      else none
    | [] => none

/-- The Python exceptions the receiver can meet. -/
inductive PyErr where
  | jsonDecodeError : PyErr
  | attributeError : PyErr
  | typeError : PyErr
  | keyError : PyErr
  | validationError : PyErr
deriving DecidableEq

/-- `json.loads`: parse one JSON document, rejecting trailing garbage. -/
def jsonLoads (s : String) : Except PyErr Json :=
  match parseGo (2 * s.length + 2) .value s.data with
  | some (j, rest) => if skipWs rest = [] then .ok j else .error .jsonDecodeError
  | none => .error .jsonDecodeError

/-- The loop body of CPython's `hmac.compare_digest` (`_tscmp`): when the
lengths match it scans the pairs of `a` and `b`, otherwise it scans `b`
against itself starting from a nonzero accumulator; either way it performs
one XOR-and-accumulate byte comparison per scanned position, never
exiting early. The second component counts those byte comparisons. The
function works on the code points of the two strings (CPython requires
ASCII-only `str` arguments, for which code points and bytes agree; a
non-ASCII right-hand side would raise `TypeError` inside the same
`try` block that already logs and drops the message, so that corner is
observationally the same rejection and is not modelled separately). -/
def compareDigestRun (a b : String) : Nat × Nat :=
  let xs := a.data.map Char.toNat
  let ys := b.data.map Char.toNat
  let left := if xs.length = ys.length then xs else ys
  let init := if xs.length = ys.length then (0 : Nat) else 1
  (left.zip ys).foldl (fun p q => (p.1 ||| (q.1 ^^^ q.2), p.2 + 1)) (init, 0)

/-- `hmac.compare_digest`: true iff the accumulated XOR of all byte pairs
is zero. -/
def compareDigest (a b : String) : Bool := (compareDigestRun a b).1 == 0

/-- The number of byte comparisons `compare_digest` performs — the
instrumentation counter the spec's constant-time property speaks about. -/
def compareDigestComparisons (a b : String) : Nat := (compareDigestRun a b).2

/-- The body of a signed action request
(`class ActionRequestBody(BaseModel)`, receiver.py lines 30–37).
`action_params: dict = None`, `sinks: Optional[List[str]] = None` and
`origin: str = None` are optional with default `None`; `none` models
`None`. `action_params` holds an arbitrary JSON mapping, kept as the
parsed `Json` object. -/
structure ActionRequestBody where
  account_id : String
  cluster_name : String
  action_name : String
  timestamp : Int
  action_params : Option Json
  sinks : Option (List String)
  origin : Option String

/-- A signed request (`class ActionRequest(BaseModel)`, lines 40–42). -/
structure ActionRequest where
  signature : String
  body : ActionRequestBody

/-- pydantic v1 `body.json(exclude_none=True)` serializes the fields as a
dict in declaration order, dropping fields whose value is `None`; this is
that dict's field list. -/
def bodyFields (b : ActionRequestBody) : List (String × Json) :=
  [("account_id", Json.str b.account_id),
   ("cluster_name", Json.str b.cluster_name),
   ("action_name", Json.str b.action_name),
   ("timestamp", Json.num b.timestamp)] ++
  (match b.action_params with
   | none => []
   | some p => [("action_params", p)]) ++
  (match b.sinks with
   | none => []
   | some l => [("sinks", Json.arr (l.map Json.str))]) ++
  (match b.origin with
   | none => []
   | some o => [("origin", Json.str o)])

/-- `action_request.body.json(exclude_none=True)`. -/
def bodyJson (b : ActionRequestBody) : String := jsonDump (Json.obj (bodyFields b))

/-- `ActionRequestReceiver.__validate_request` (lines 147–168), with the
live-read collaborators as parameters: `signingKey` is
`get_global_config().get("signing_key")` (`none` when missing; Python's
`if not signing_key` also catches the empty string), `now` is
`time.time()`, `window` is `INCOMING_REQUEST_TIME_WINDOW_SECONDS`. -/
def validate_request (action_request : ActionRequest) (signingKey : Option String)
    (now window : Int) : Bool :=
  let format_req := strBytes ("v0:" ++ bodyJson action_request.body)
  match signingKey with
  | none => false
  | some signing_key =>
    if signing_key = "" then false
    else if window < now - action_request.body.timestamp then false
    else
      let encoded_secret := strBytes signing_key
      let request_hash := hexEncode (hmacSha256 encoded_secret format_req)
      let generated_signature := "v0=" ++ request_hash
      compareDigest generated_signature action_request.signature

/-- The signature `__validate_request` computes and therefore the one a
holder of `signing_key` puts on a body: `"v0=" + HMAC-SHA256 hexdigest` of
the canonical bytes. -/
def expectedSignature (signing_key : String) (b : ActionRequestBody) : String :=
  "v0=" ++ hexEncode (hmacSha256 (strBytes signing_key) (strBytes ("v0:" ++ bodyJson b)))

/-- Modelled from the spec: `ExternalActionRequest` (the spec's
ResolvedActionRequest, §3) lives in `..core.reporting.callbacks`, which is
not among the given sources: `target_id` (may be empty), `action_name`,
`action_params`, `sinks`, `origin`. An action cleared for dispatch. -/
structure ExternalActionRequest where
  target_id : String
  action_name : String
  action_params : Option Json
  sinks : Option (List String)
  origin : Option String

/-- Modelled from the spec: `IncomingRequest` (also from
`..core.reporting.callbacks`, not among the given sources) is the
pre-validated incoming-request envelope carried by a legacy entry's
`value`; the embedded request is its field `incoming_request` (used at
receiver.py lines 104–106). -/
structure IncomingRequest where
  incoming_request : ExternalActionRequest

/-- Field lookup in a parsed JSON object (Python dicts hold each key once,
so first match is the match). -/
def lookupField : List (String × Json) → String → Option Json
  | [], _ => none
  | (k, v) :: rest, key => if k = key then some v else lookupField rest key

/-- `incoming_event.get(key, None)` — only meaningful on a dict. -/
def jsonGet (j : Json) (key : String) : Option Json :=
  match j with
  | .obj fields => lookupField fields key
  | _ => none

/-- Python truthiness of a parsed JSON value (`if actions:`). -/
def truthy : Json → Bool
  | .null => false
  | .bool b => b
  | .num n => n != 0
  | .str s => s != ""
  | .arr xs => !xs.isEmpty
  | .obj fs => !fs.isEmpty

/-- What `for action in actions:` iterates over: a list yields its
elements, a string its one-character substrings, a dict its keys; other
values raise `TypeError` at the `for` statement itself (outside the
per-entry `try`). -/
def pyIter : Json → Option (List Json)
  | .arr xs => some xs
  | .str s => some (s.data.map (fun c => Json.str (String.mk [c])))
  | .obj fs => some (fs.map (fun p => Json.str p.1))
  | _ => none

/-- A JSON string parsed into an optional-`dict` pydantic field
(`action_params: dict = None`): absent or null gives `None`, a dict is
kept, anything else fails validation. -/
def parseOptParams : Option Json → Except PyErr (Option Json)
  | none => .ok none
  | some .null => .ok none
  | some (.obj fs) => .ok (some (.obj fs))
  | some _ => .error .validationError

/-- An optional `List[str]` pydantic field (`sinks`). -/
def parseOptSinks : Option Json → Except PyErr (Option (List String))
  | none => .ok none
  | some .null => .ok none
  | some (.arr xs) =>
    match xs.mapM (fun j => match j with
      | Json.str s => some s
      | _ => none) with
    | some l => .ok (some l)
    | none => .error .validationError
  | some _ => .error .validationError

/-- An optional `str` pydantic field (`origin`). -/
def parseOptStr : Option Json → Except PyErr (Option String)
  | none => .ok none
  | some .null => .ok none
  | some (.str s) => .ok (some s)
  | some _ => .error .validationError

/-- pydantic v1 validation of `ActionRequestBody` from a parsed JSON dict:
required fields must be present with the right type, optional fields
accept absence or null, extra fields are ignored. -/
def parseBody (j : Json) : Except PyErr ActionRequestBody :=
  match j with
  | .obj fields =>
    match lookupField fields "account_id", lookupField fields "cluster_name",
        lookupField fields "action_name", lookupField fields "timestamp" with
    | some (.str account_id), some (.str cluster_name),
        some (.str action_name), some (.num timestamp) =>
      match parseOptParams (lookupField fields "action_params"),
          parseOptSinks (lookupField fields "sinks"),
          parseOptStr (lookupField fields "origin") with
      | .ok action_params, .ok sinks, .ok origin =>
        .ok ⟨account_id, cluster_name, action_name, timestamp, action_params, sinks, origin⟩
      | _, _, _ => .error .validationError
    | _, _, _, _ => .error .validationError
  | _ => .error .validationError

/-- `ActionRequest(**incoming_event)`: pydantic v1 validation of the whole
direct-format payload. -/
def parseActionRequest (j : Json) : Except PyErr ActionRequest :=
  match j with
  | .obj fields =>
    match lookupField fields "signature", lookupField fields "body" with
    | some (.str signature), some bj => (parseBody bj).map (fun b => ⟨signature, b⟩)
    | _, _ => .error .validationError
  | _ => .error .validationError

/-- Modelled from the spec: validation of the embedded
ResolvedActionRequest inside an envelope — `target_id` and `action_name`
are its required strings, the rest are the optional fields shared with the
body schema. -/
def parseExternal (j : Json) : Except PyErr ExternalActionRequest :=
  match j with
  | .obj fields =>
    match lookupField fields "target_id", lookupField fields "action_name" with
    | some (.str target_id), some (.str action_name) =>
      match parseOptParams (lookupField fields "action_params"),
          parseOptSinks (lookupField fields "sinks"),
          parseOptStr (lookupField fields "origin") with
      | .ok action_params, .ok sinks, .ok origin =>
        .ok ⟨target_id, action_name, action_params, sinks, origin⟩
      | _, _, _ => .error .validationError
    | _, _ => .error .validationError
  | _ => .error .validationError

/-- Modelled from the spec: `IncomingRequest.parse_raw(s)` — parse `s` as
JSON (pydantic wraps a JSON failure into its own validation error, still an
exception) and validate the envelope, whose required field is
`incoming_request`. -/
def parseIncomingRequest (s : String) : Except PyErr IncomingRequest :=
  match jsonLoads s with
  | .error _ => .error .validationError
  | .ok (.obj fields) =>
    match lookupField fields "incoming_request" with
    | some ij => (parseExternal ij).map (fun r => ⟨r⟩)
    | none => .error .validationError
  | .ok _ => .error .validationError

/-- One legacy entry (the body of the `for` loop, lines 103–107):
`action["value"]` — `TypeError` on a non-dict, `KeyError` when missing —
then `IncomingRequest.parse_raw(value)`, extracting `.incoming_request`.
The caller catches any of these errors. -/
def parseLegacyEntry (action : Json) : Except PyErr ExternalActionRequest :=
  match action with
  | .obj fields =>
    match lookupField fields "value" with
    | some (.str s) => (parseIncomingRequest s).map IncomingRequest.incoming_request
    | some _ => .error .validationError
    | none => .error .keyError
  | _ => .error .typeError

/-- The outcome of one `on_message` call: either the handler returned
normally — recording the `ExternalActionRequest`s passed to
`__run_external_action_request` (each of which becomes one
`run_actions(execution_event, [action])` call) and how many failures were
logged with `logging.error` — or an exception escaped the handler. -/
inductive MsgOutcome where
  | handled (calls : List ExternalActionRequest) (errorsLogged : Nat) : MsgOutcome
  | raised (e : PyErr) : MsgOutcome

/-- One legacy entry processed inside its own `try` (lines 102–112): a
parse failure is caught and logged; a successful parse dispatches, and a
raising dispatch handler (`dRaises`) is caught and logged after the call
was already made. -/
def legacyStep (dRaises : ExternalActionRequest → Bool)
    (acc : List ExternalActionRequest × Nat) (action : Json) :
    List ExternalActionRequest × Nat :=
  match parseLegacyEntry action with
  | .error _ => (acc.1, acc.2 + 1)
  | .ok req => (acc.1 ++ [req], if dRaises req then acc.2 + 1 else acc.2)

/-- The legacy (slack-callback) branch: process every entry, isolating
failures per entry. -/
def legacyBranch (dRaises : ExternalActionRequest → Bool) (entries : List Json) : MsgOutcome :=
  let r := entries.foldl (legacyStep dRaises) ([], 0)
  .handled r.1 r.2

/-- The direct (`ActionRequest`) branch (lines 113–132), all inside one
`try`: parse, validate, and on success dispatch with `target_id=""` and
the body's fields passed through; a validation failure or caught exception
logs one error and dispatches nothing. -/
def directBranch (dRaises : ExternalActionRequest → Bool) (signingKey : Option String)
    (now window : Int) (incoming_event : Json) : MsgOutcome :=
  match parseActionRequest incoming_event with
  | .error _ => .handled [] 1
  | .ok action_request =>
    if validate_request action_request signingKey now window then
      let incoming_request : ExternalActionRequest :=
        ⟨"", action_request.body.action_name, action_request.body.action_params,
          action_request.body.sinks, action_request.body.origin⟩
      .handled [incoming_request] (if dRaises incoming_request then 1 else 0)
    else .handled [] 1

/-- `on_message` after `json.loads` (lines 96–132). `json.loads` and the
`.get("actions", None)` probe sit before either `try` block, so a parse
error or a non-dict document propagates out as `raised`; a truthy
non-iterable `actions` value raises `TypeError` at the `for` statement,
also outside the `try`. -/
def processEvent (dRaises : ExternalActionRequest → Bool) (signingKey : Option String)
    (now window : Int) : Except PyErr Json → MsgOutcome
  | .error e => .raised e
  | .ok incoming_event =>
    match incoming_event with
    | .obj _ =>
      let actions := (jsonGet incoming_event "actions").getD Json.null
      if truthy actions then
        match pyIter actions with
        | some entries => legacyBranch dRaises entries
        | none => .raised .typeError
      else directBranch dRaises signingKey now window incoming_event
    | _ => .raised .attributeError

/-- `ActionRequestReceiver.on_message` on the raw text frame. -/
def on_message (dRaises : ExternalActionRequest → Bool) (signingKey : Option String)
    (now window : Int) (message : String) : MsgOutcome :=
  processEvent dRaises signingKey now window (jsonLoads message)

/-- Where the `run_forever` thread is in its loop: about to test
`while self.active`, blocked in `ws.run_forever()`, in the reconnect
`time.sleep`, or past the loop. -/
inductive LoopPhase where
  | checking : LoopPhase
  | connected : LoopPhase
  | sleeping : LoopPhase
  | exited : LoopPhase
deriving DecidableEq

/-- The receiver's cross-iteration state: the `self.active` flag, the loop
position, and how many `websocket.WebSocketApp` connections have been
constructed (one per loop iteration that passes the `while` test). -/
structure ReceiverState where
  active : Bool
  phase : LoopPhase
  connectionsOpened : Nat

/-- The events that drive `run_forever` (lines 79–94) and `stop`
(lines 92–94): the `while` condition is evaluated; the open connection
terminates (any cause); the reconnect sleep elapses; another thread calls
`stop()`, which only clears the flag — it closes nothing. -/
inductive LoopEvent where
  | check : LoopEvent
  | connClosed : LoopEvent
  | wake : LoopEvent
  | stop : LoopEvent

/-- One transition of the receiver loop. Events that cannot occur in the
current phase leave the state unchanged; `stop` can happen at any time
from another thread. -/
def loopStep (s : ReceiverState) (e : LoopEvent) : ReceiverState :=
  match e with
  | .stop => ⟨false, s.phase, s.connectionsOpened⟩
  | .check =>
    match s.phase with
    | .checking =>
      if s.active then ⟨s.active, .connected, s.connectionsOpened + 1⟩
      else ⟨s.active, .exited, s.connectionsOpened⟩
    | _ => s
  | .connClosed =>
    match s.phase with
    | .connected => ⟨s.active, .sleeping, s.connectionsOpened⟩
    | _ => s
  | .wake =>
    match s.phase with
    | .sleeping => ⟨s.active, .checking, s.connectionsOpened⟩
    | _ => s

/-- A run of the receiver loop under a sequence of events. -/
def loopRun (s : ReceiverState) (evs : List LoopEvent) : ReceiverState :=
  evs.foldl loopStep s

/-- The spec's reading of the canonical body serialization: the schema's
fields in schema order, each carrying an optional value, with
absent/null-valued fields omitted (`specFieldOptions` paired with the
`filterMap` in the canonicalization theorem). Written from the spec's
words, to be compared against `bodyFields`, which mirrors pydantic. -/
def specFieldOptions (b : ActionRequestBody) : List (String × Option Json) :=
  [("account_id", some (Json.str b.account_id)),
   ("cluster_name", some (Json.str b.cluster_name)),
   ("action_name", some (Json.str b.action_name)),
   ("timestamp", some (Json.num b.timestamp)),
   ("action_params", b.action_params),
   ("sinks", b.sinks.map (fun l => Json.arr (l.map Json.str))),
   ("origin", b.origin.map Json.str)]

/-- A dispatch handler that never raises (the benign collaborator used in
concrete scenarios). -/
def noRaise : ExternalActionRequest → Bool := fun _ => false

/-- The spec's §8 example body: `account_id "a"`, `cluster_name "c"`,
`action_name "restart_pod"`, `timestamp 1000`, `action_params`
mapping `"pod"` to `"x"` (the example's secret is `"s3cr3t"`). -/
def bodyEx : ActionRequestBody :=
  ⟨"a", "c", "restart_pod", 1000, some (Json.obj [("pod", Json.str "x")]), none, none⟩

/-- The fields of a correctly signed direct-format message for `bodyEx`. -/
def directMsgFields : List (String × Json) :=
  [("signature", Json.str (expectedSignature "s3cr3t" bodyEx)),
   ("body", Json.obj
     [("account_id", Json.str "a"),
      ("cluster_name", Json.str "c"),
      ("action_name", Json.str "restart_pod"),
      ("timestamp", Json.num 1000),
      ("action_params", Json.obj [("pod", Json.str "x")])])]

/-- A well-formed legacy entry `value`: the JSON text of an envelope whose
embedded request is `target_id "t1"`, `action_name "act1"`. -/
def valueOne : String :=
  "\x7b\"incoming_request\": \x7b\"target_id\": \"t1\", \"action_name\": \"act1\"\x7d\x7d"

/-- A second well-formed legacy entry `value` (`"t3"` / `"act3"`). -/
def valueThree : String :=
  "\x7b\"incoming_request\": \x7b\"target_id\": \"t3\", \"action_name\": \"act3\"\x7d\x7d"

/-- A legacy-format message with three entries whose middle entry has a
malformed `value`. -/
def legacyMsgEx : Json :=
  Json.obj [("actions", Json.arr
    [Json.obj [("value", Json.str valueOne)],
     Json.obj [("value", Json.str "not json")],
     Json.obj [("value", Json.str valueThree)]])]

set_option maxRecDepth 20000 in
/-- The SHA-256 implementation meets the FIPS 180-2 test vector for
`"abc"`, checked by kernel evaluation. -/
theorem sha256_abc_vector :
    hexEncode (sha256 (strBytes "abc")) =
      "ba7816bf8f01cfea414140de5dae2223b00361a396177a9cb410ff61f20015ad" := by
  decide

set_option maxRecDepth 20000 in
/-- The HMAC-SHA256 implementation meets the RFC 2202-style test vector
for key `"key"` over the quick-brown-fox message. -/
theorem hmacSha256_fox_vector :
    hexEncode (hmacSha256 (strBytes "key")
        (strBytes "The quick brown fox jumps over the lazy dog")) =
      "f7bc83f430538424b13298e6aa6fb143ef4d59a14946175997479dbc2d1a3cd8" := by
  decide

/-- Bitwise or of naturals is zero exactly when both are. -/
theorem lor_eq_zero_iff (a b : Nat) : a ||| b = 0 ↔ a = 0 ∧ b = 0 := by
  constructor
  · intro h
    refine ⟨Nat.eq_of_testBit_eq fun i => ?_, Nat.eq_of_testBit_eq fun i => ?_⟩ <;>
      · have h2 := congrArg (fun n => Nat.testBit n i) h
        simp [Nat.testBit_or] at h2
        simp [h2]
  · rintro ⟨rfl, rfl⟩
    rfl

/-- The XOR-accumulating fold of `compare_digest` ends at zero exactly when
it starts at zero and every scanned pair matches. -/
theorem foldl_lor_xor_eq_zero (l : List (Nat × Nat)) (a : Nat) :
    l.foldl (fun acc q => acc ||| (q.1 ^^^ q.2)) a = 0 ↔ a = 0 ∧ ∀ p ∈ l, p.1 = p.2 := by
  induction l generalizing a with
  | nil => simp
  | cons p l ih =>
    simp only [List.foldl_cons, ih, lor_eq_zero_iff, Nat.xor_eq_zero, List.forall_mem_cons,
      and_assoc]

/-- The instrumented `compare_digest` fold splits into the XOR accumulator
and a count that grows by exactly one per scanned pair. -/
theorem foldl_count_eq (l : List (Nat × Nat)) (a c : Nat) :
    l.foldl (fun p q => (p.1 ||| (q.1 ^^^ q.2), p.2 + 1)) (a, c) =
      (l.foldl (fun acc q => acc ||| (q.1 ^^^ q.2)) a, c + l.length) := by
  induction l generalizing a c with
  | nil => simp
  | cons p l ih =>
    simp only [List.foldl_cons, ih, List.length_cons]
    exact Prod.ext rfl (by omega)

/-- Every pair obtained by zipping a list with itself is reflexive. -/
theorem zip_same_fst_eq_snd (xs : List Nat) : ∀ p ∈ xs.zip xs, p.1 = p.2 := by
  induction xs with
  | nil => simp
  | cons x xs ih =>
    intro p hp
    rcases List.mem_cons.mp hp with h | h
    · rw [h]
    · exact ih p h

/-- Equal-length lists whose zipped pairs all agree are equal. -/
theorem eq_of_zip_forall_eq :
    ∀ (xs ys : List Nat), xs.length = ys.length → (∀ p ∈ xs.zip ys, p.1 = p.2) → xs = ys := by
  intro xs
  induction xs with
  | nil =>
    intro ys h _
    cases ys with
    | nil => rfl
    | cons y ys => simp at h
  | cons x xs ih =>
    intro ys h hp
    cases ys with
    | nil => simp at h
    | cons y ys =>
      have hx : x = y := hp (x, y) (by simp)
      have ht : xs = ys := by
        refine ih ys (by simpa using h) fun p hmem => hp p ?_
        simp [List.zip_cons_cons, hmem]
      rw [hx, ht]

/-- `compare_digest` accepts a string against itself. -/
theorem compareDigest_self (a : String) : compareDigest a a = true := by
  simp only [compareDigest, compareDigestRun, beq_iff_eq, if_pos rfl]
  rw [foldl_count_eq]
  exact (foldl_lor_xor_eq_zero _ _).mpr ⟨rfl, zip_same_fst_eq_snd _⟩

/-- `compare_digest` accepts only equal strings: the unequal-length scan
starts from a nonzero accumulator, and an equal-length scan that ends at
zero forces every code point to agree. -/
theorem eq_of_compareDigest_true (a b : String) (h : compareDigest a b = true) : a = b := by
  simp only [compareDigest, compareDigestRun, beq_iff_eq] at h
  rw [foldl_count_eq] at h
  by_cases hl : (a.data.map Char.toNat).length = (b.data.map Char.toNat).length
  · rw [if_pos hl, if_pos hl] at h
    have h2 := (foldl_lor_xor_eq_zero _ _).mp h
    have h3 : a.data.map Char.toNat = b.data.map Char.toNat :=
      eq_of_zip_forall_eq _ _ hl h2.2
    have hinj : Function.Injective Char.toNat := by
      intro c1 c2 hc
      have := congrArg Char.ofNat hc
      rwa [Char.ofNat_toNat, Char.ofNat_toNat] at this
    exact String.ext (List.map_injective_iff.mpr hinj h3)
  · rw [if_neg hl, if_neg hl] at h
    have h2 := (foldl_lor_xor_eq_zero _ _).mp h
    exact absurd h2.1 one_ne_zero

/-- The number of byte comparisons `compare_digest` performs is the length
of its right argument — independent of where (or whether) the strings
differ. -/
theorem compareDigestComparisons_eq (a b : String) :
    compareDigestComparisons a b = b.length := by
  have hlen : ∀ (xs ys : List Nat),
      ((if xs.length = ys.length then xs else ys).zip ys).length = ys.length := by
    intro xs ys
    by_cases hl : xs.length = ys.length
    · rw [if_pos hl, List.length_zip, hl]
      simp
    · rw [if_neg hl, List.length_zip]
      simp
  simp only [compareDigestComparisons, compareDigestRun]
  rw [foldl_count_eq]
  show 0 + ((if (a.data.map Char.toNat).length = (b.data.map Char.toNat).length
      then a.data.map Char.toNat else b.data.map Char.toNat).zip
        (b.data.map Char.toNat)).length = b.length
  rw [hlen]
  show 0 + (b.data.map Char.toNat).length = b.data.length
  rw [List.length_map]
  omega

/-- Validation accepts the expected signature whenever the key is usable
and the timestamp is within the window. -/
theorem validate_expected (signing_key : String) (b : ActionRequestBody) (now window : Int)
    (hk : signing_key ≠ "") (hf : now - b.timestamp ≤ window) :
    validate_request ⟨expectedSignature signing_key b, b⟩ (some signing_key) now window = true := by
  simp only [validate_request]
  rw [if_neg hk, if_neg (not_lt.mpr hf)]
  exact compareDigest_self _

set_option linter.unnecessarySeqFocus false in
/-- The legacy loop, as a fold, appends the dispatches of the parseable
entries and adds one logged failure per unparseable entry and per entry
whose dispatch handler raised. -/
theorem legacy_foldl_spec (dRaises : ExternalActionRequest → Bool) :
    ∀ (entries : List Json) (calls : List ExternalActionRequest) (errs : Nat),
      entries.foldl (legacyStep dRaises) (calls, errs) =
        (calls ++ entries.filterMap (fun a => (parseLegacyEntry a).toOption),
         errs + (entries.map (fun a =>
           match parseLegacyEntry a with
           | .error _ => 1
           | .ok r => if dRaises r then 1 else 0)).sum) := by
  intro entries
  induction entries with
  | nil => intro calls errs; simp
  | cons a l ih =>
    intro calls errs
    rw [List.foldl_cons]
    cases h : parseLegacyEntry a with
    | error e =>
      simp only [legacyStep, h, ih, List.filterMap_cons, List.map_cons, List.sum_cons,
        Except.toOption]
      exact Prod.ext rfl (by omega)
    | ok r =>
      simp only [legacyStep, h, ih, List.filterMap_cons, List.map_cons, List.sum_cons,
        Except.toOption, List.append_assoc, List.singleton_append]
      by_cases hd : dRaises r <;> simp [hd, Prod.ext_iff] <;> omega

/-- Once the active flag is false it stays false, and no run of the loop
opens another connection. -/
theorem loopRun_inactive (evs : List LoopEvent) :
    ∀ s : ReceiverState, s.active = false →
      (loopRun s evs).active = false ∧
        (loopRun s evs).connectionsOpened = s.connectionsOpened := by
  induction evs with
  | nil => intro s h; exact ⟨h, rfl⟩
  | cons e evs ih =>
    intro s h
    have hstep : (loopStep s e).active = false ∧
        (loopStep s e).connectionsOpened = s.connectionsOpened := by
      rcases s with ⟨a, ph, n⟩
      have ha : a = false := h
      subst ha
      cases e <;> cases ph <;> simp [loopStep]
    have hrun := ih (loopStep s e) hstep.1
    exact ⟨hrun.1, hrun.2.trans hstep.2⟩

/-- C1: with a usable signing key, a request carrying the expected
signature for its body validates at `now = timestamp` for any
`window ≥ 0`; and any request whose timestamp is more than `window`
seconds in the past is rejected, whatever its signature and whatever the
key state. -/
theorem correct_signature_validates_within_window :
    ∀ (signing_key : String) (b : ActionRequestBody) (window : Int),
      signing_key ≠ "" → 0 ≤ window →
      validate_request ⟨expectedSignature signing_key b, b⟩ (some signing_key)
          b.timestamp window = true ∧
        ∀ (key : Option String) (sig : String) (now : Int),
          b.timestamp + window < now →
          validate_request ⟨sig, b⟩ key now window = false := by
  intro signing_key b window hk hw
  constructor
  · exact validate_expected signing_key b b.timestamp window hk (by omega)
  · intro key sig now hlate
    cases key with
    | none => rfl
    | some k =>
      by_cases hke : k = ""
      · simp [validate_request, hke]
      · simp only [validate_request]
        rw [if_neg hke, if_pos (by omega)]

/-- C1 witness: the §8 example — signed body, `now = 1000`,
`window = 300` accepts; `now = 1301` rejects. -/
theorem correct_signature_validates_within_window_witness :
    validate_request ⟨expectedSignature "s3cr3t" bodyEx, bodyEx⟩ (some "s3cr3t")
        1000 300 = true ∧
      validate_request ⟨expectedSignature "s3cr3t" bodyEx, bodyEx⟩ (some "s3cr3t")
        1301 300 = false :=
  ⟨(correct_signature_validates_within_window "s3cr3t" bodyEx 300 (by decide) (by decide)).1,
   (correct_signature_validates_within_window "s3cr3t" bodyEx 300 (by decide) (by decide)).2
     (some "s3cr3t") (expectedSignature "s3cr3t" bodyEx) 1301 (by decide)⟩

/-- C4: with a missing or empty signing key, validation fails closed for
every request, timestamp, window and signature. -/
theorem missing_key_fails_closed :
    ∀ (r : ActionRequest) (now window : Int),
      validate_request r none now window = false ∧
        validate_request r (some "") now window = false := by
  intro r now window
  exact ⟨rfl, by simp [validate_request]⟩

/-- C5: the staleness check only bounds the age of a timestamp — a body
timestamped in the future validates (with a usable key and its expected
signature), for any nonnegative window. -/
theorem future_timestamp_not_rejected :
    ∀ (signing_key : String) (b : ActionRequestBody) (now window : Int),
      signing_key ≠ "" → 0 ≤ window → now < b.timestamp →
      validate_request ⟨expectedSignature signing_key b, b⟩ (some signing_key)
        now window = true := by
  intro signing_key b now window hk hw hfut
  exact validate_expected signing_key b now window hk (by omega)

/-- C5 witness: the example body validates at `now = 999`, one second
before its own timestamp. -/
theorem future_timestamp_not_rejected_witness :
    validate_request ⟨expectedSignature "s3cr3t" bodyEx, bodyEx⟩ (some "s3cr3t")
      999 300 = true :=
  future_timestamp_not_rejected "s3cr3t" bodyEx 999 300 (by decide) (by decide) (by decide)

/-- C3: any signature other than the expected one is rejected (in
particular any single-bit mutation of a valid signature), and the
`compare_digest` comparison of two equal-length strings performs exactly
one byte comparison per position — a count independent of where, or
whether, they first differ. -/
theorem wrong_signature_rejected_constant_time :
    (∀ (signing_key : String) (b : ActionRequestBody) (sig : String) (now window : Int),
      sig ≠ expectedSignature signing_key b →
      validate_request ⟨sig, b⟩ (some signing_key) now window = false) ∧
    ∀ (x y : String), x.length = y.length → compareDigestComparisons x y = x.length := by
  constructor
  · intro signing_key b sig now window hsig
    by_cases hke : signing_key = ""
    · simp [validate_request, hke]
    · simp only [validate_request]
      rw [if_neg hke]
      split
      · rfl
      · by_cases hc : compareDigest (expectedSignature signing_key b) sig = true
        · exact absurd (eq_of_compareDigest_true _ _ hc).symm hsig
        · exact Bool.not_eq_true _ ▸ hc
  · intro x y hl
    rw [compareDigestComparisons_eq, hl]

set_option maxRecDepth 40000 in
/-- C3 witness: the empty signature (which differs from the valid one) is
rejected on the example body, and comparing the two five-character strings
`"v0=aa"` and `"v0=bb"` takes five byte comparisons. -/
theorem wrong_signature_rejected_constant_time_witness :
    validate_request ⟨"", bodyEx⟩ (some "s3cr3t") 1000 300 = false ∧
      compareDigestComparisons "v0=aa" "v0=bb" = 5 :=
  ⟨wrong_signature_rejected_constant_time.1 "s3cr3t" bodyEx "" 1000 300 (by decide),
   wrong_signature_rejected_constant_time.2 "v0=aa" "v0=bb" (by decide)⟩

/-- C2 counterexample: a message that is not valid JSON makes `on_message`
raise — `json.loads` sits before either `try` block, so the claim that the
handler catches any parse exception fails at this input. -/
theorem malformed_json_raises_counterexample :
    on_message noRaise (some "s3cr3t") 1000 300 "not json" =
      MsgOutcome.raised PyErr.jsonDecodeError := rfl

/-- C2 (amended): for a message parsed into a JSON object whose `actions`
value, when truthy, is iterable, every parse or processing exception of
either branch is caught and logged and `on_message` returns normally;
a message that is not valid JSON (or a non-object document, or a truthy
non-iterable `actions` value) instead raises out of `on_message`, as the
counterexample shows. -/
theorem branch_exceptions_contained :
    ∀ (dRaises : ExternalActionRequest → Bool) (signingKey : Option String)
      (now window : Int) (fields : List (String × Json)),
      (truthy ((lookupField fields "actions").getD Json.null) = true →
        (pyIter ((lookupField fields "actions").getD Json.null)).isSome = true) →
      ∃ calls errorsLogged,
        processEvent dRaises signingKey now window (.ok (Json.obj fields)) =
          .handled calls errorsLogged := by
  intro dRaises signingKey now window fields hiter
  simp only [processEvent, jsonGet]
  by_cases ht : truthy ((lookupField fields "actions").getD Json.null) = true
  · rw [if_pos ht]
    rcases Option.isSome_iff_exists.mp (hiter ht) with ⟨entries, hent⟩
    rw [hent]
    exact ⟨_, _, rfl⟩
  · rw [if_neg ht]
    simp only [directBranch]
    split
    · exact ⟨[], 1, rfl⟩
    · split
      · exact ⟨_, _, rfl⟩
      · exact ⟨[], 1, rfl⟩

/-- C2 witness: a JSON-object message with no `actions` field and an
unparseable payload is handled, not raised. -/
theorem branch_exceptions_contained_witness :
    ∃ calls errorsLogged,
      processEvent noRaise (some "s3cr3t") 1000 300
          (.ok (Json.obj [("signature", Json.str "x")])) =
        .handled calls errorsLogged :=
  branch_exceptions_contained noRaise (some "s3cr3t") 1000 300
    [("signature", Json.str "x")] (by decide)

/-- C6: a direct-format message (no `actions` field) that parses and
validates makes exactly one dispatch call, with `target_id = \"\"` and the
body's `action_name`, `action_params` and `sinks` (and `origin`) passed
through unchanged; only a raising dispatch handler logs an error. -/
theorem direct_format_single_dispatch :
    ∀ (dRaises : ExternalActionRequest → Bool) (signingKey : Option String)
      (now window : Int) (fields : List (String × Json)) (req : ActionRequest),
      lookupField fields "actions" = none →
      parseActionRequest (Json.obj fields) = .ok req →
      validate_request req signingKey now window = true →
      processEvent dRaises signingKey now window (.ok (Json.obj fields)) =
        .handled [⟨"", req.body.action_name, req.body.action_params,
            req.body.sinks, req.body.origin⟩]
          (if dRaises ⟨"", req.body.action_name, req.body.action_params,
              req.body.sinks, req.body.origin⟩ then 1 else 0) := by
  intro dRaises signingKey now window fields req hA hP hV
  simp only [processEvent, jsonGet, hA, Option.getD_none]
  rw [if_neg (by simp [truthy])]
  simp only [directBranch, hP]
  rw [if_pos hV]

/-- C6 witness: the correctly signed direct message for the example body
dispatches exactly once with the passthrough fields. -/
theorem direct_format_single_dispatch_witness :
    processEvent noRaise (some "s3cr3t") 1000 300 (.ok (Json.obj directMsgFields)) =
      .handled [⟨"", "restart_pod", some (Json.obj [("pod", Json.str "x")]), none, none⟩] 0 :=
  direct_format_single_dispatch noRaise (some "s3cr3t") 1000 300 directMsgFields
    ⟨expectedSignature "s3cr3t" bodyEx, bodyEx⟩ rfl rfl
    (validate_expected "s3cr3t" bodyEx 1000 300 (by decide) (by decide))

/-- C7: the legacy branch processes every entry in isolation — the
dispatches are exactly those of the parseable entries, in order, failures
are counted one per bad entry, and nothing is raised; in particular the
three-entry message whose middle `value` is malformed yields exactly the
first and third dispatches and one logged failure. -/
theorem legacy_entry_isolation :
    (∀ (dRaises : ExternalActionRequest → Bool) (signingKey : Option String)
      (now window : Int) (fields : List (String × Json)) (entries : List Json),
      lookupField fields "actions" = some (Json.arr entries) → entries ≠ [] →
      processEvent dRaises signingKey now window (.ok (Json.obj fields)) =
        .handled (entries.filterMap (fun a => (parseLegacyEntry a).toOption))
          ((entries.map (fun a =>
            match parseLegacyEntry a with
            | .error _ => 1
            | .ok r => if dRaises r then 1 else 0)).sum)) ∧
    processEvent noRaise (some "s3cr3t") 1000 300 (.ok legacyMsgEx) =
      .handled [⟨"t1", "act1", none, none, none⟩, ⟨"t3", "act3", none, none, none⟩] 1 := by
  constructor
  · intro dRaises signingKey now window fields entries hA hne
    simp only [processEvent, jsonGet, hA, Option.getD_some]
    rw [if_pos (by cases entries with
      | nil => exact absurd rfl hne
      | cons a l => simp [truthy])]
    simp only [pyIter, legacyBranch, legacy_foldl_spec]
    simp
  · rfl

/-- C7 witness: a one-entry legacy message whose single `value` is
malformed dispatches nothing and logs one failure. -/
theorem legacy_entry_isolation_witness :
    processEvent noRaise (some "s3cr3t") 1000 300
        (.ok (Json.obj [("actions",
          Json.arr [Json.obj [("value", Json.str "not json")]])])) =
      .handled [] 1 :=
  legacy_entry_isolation.1 noRaise (some "s3cr3t") 1000 300
    [("actions", Json.arr [Json.obj [("value", Json.str "not json")]])]
    [Json.obj [("value", Json.str "not json")]] rfl (List.cons_ne_nil _ _)

/-- C8: after `stop()` clears the active flag, no continuation of the loop
— whatever events follow: the open connection closing, the reconnect sleep
elapsing, the `while` test running — ever constructs another connection,
and the flag stays false. -/
theorem stop_prevents_reconnect :
    ∀ (s : ReceiverState) (evs : List LoopEvent),
      (loopRun (loopStep s LoopEvent.stop) evs).connectionsOpened = s.connectionsOpened ∧
        (loopRun (loopStep s LoopEvent.stop) evs).active = false := by
  intro s evs
  have h := loopRun_inactive evs (loopStep s LoopEvent.stop) rfl
  exact ⟨h.2, h.1⟩

/-- C9: the canonical byte string is the tag `"v0:"` followed by the body
as a JSON object in schema field order with absent/null fields omitted —
the serializer used by validation agrees with the spec-worded one — and
the expected signature is `"v0="` plus the hex HMAC-SHA256 of those bytes
under the signing key. Determinism is immediate: `bodyJson` is a function
of the body alone. -/
theorem canonicalization_deterministic_schema_order :
    ∀ (signing_key : String) (b : ActionRequestBody),
      "v0:" ++ bodyJson b =
        "v0:" ++ jsonDump (Json.obj ((specFieldOptions b).filterMap
          (fun p => p.2.map (fun v => (p.1, v))))) ∧
      expectedSignature signing_key b =
        "v0=" ++ hexEncode (hmacSha256 (strBytes signing_key)
          (strBytes ("v0:" ++ bodyJson b))) := by
  intro signing_key b
  constructor
  · have hfields : bodyFields b = (specFieldOptions b).filterMap
        (fun p => p.2.map (fun v => (p.1, v))) := by
      rcases b with ⟨account_id, cluster_name, action_name, timestamp, params, sinks, origin⟩
      cases params <;> cases sinks <;> cases origin <;> rfl
    rw [bodyJson, hfields]
  · rfl

/-- C10: an `actions` field holding an empty list or null is falsy, so the
message takes the direct branch exactly as if `actions` were absent; if
the direct parse or validation then fails, the message is dropped with one
logged error and no dispatch. -/
theorem falsy_actions_takes_direct_branch :
    ∀ (dRaises : ExternalActionRequest → Bool) (signingKey : Option String)
      (now window : Int) (fields : List (String × Json)) (a : Json),
      lookupField fields "actions" = some a →
      (a = Json.arr [] ∨ a = Json.null) →
      (processEvent dRaises signingKey now window (.ok (Json.obj fields)) =
         directBranch dRaises signingKey now window (Json.obj fields)) ∧
      (∀ e, parseActionRequest (Json.obj fields) = .error e →
         processEvent dRaises signingKey now window (.ok (Json.obj fields)) =
           .handled [] 1) ∧
      ∀ req, parseActionRequest (Json.obj fields) = .ok req →
        validate_request req signingKey now window = false →
        processEvent dRaises signingKey now window (.ok (Json.obj fields)) =
          .handled [] 1 := by
  intro dRaises signingKey now window fields a hA hfalsy
  have hbranch : processEvent dRaises signingKey now window (.ok (Json.obj fields)) =
      directBranch dRaises signingKey now window (Json.obj fields) := by
    simp only [processEvent, jsonGet, hA, Option.getD_some]
    rcases hfalsy with rfl | rfl <;> rw [if_neg (by simp [truthy])]
  refine ⟨hbranch, fun e he => ?_, fun req hreq hval => ?_⟩
  · rw [hbranch]
    simp only [directBranch, he]
  · rw [hbranch]
    simp only [directBranch, hreq]
    rw [if_neg (by simp [hval])]

/-- C10 witness: a message whose `actions` is the empty list is parsed on
the direct branch, fails the `ActionRequest` parse (no signature), and is
dropped with one logged error and zero dispatches. -/
theorem falsy_actions_takes_direct_branch_witness :
    processEvent noRaise (some "s3cr3t") 1000 300
        (.ok (Json.obj [("actions", Json.arr [])])) = .handled [] 1 :=
  (falsy_actions_takes_direct_branch noRaise (some "s3cr3t") 1000 300
      [("actions", Json.arr [])] (Json.arr []) rfl (Or.inl rfl)).2.1
    PyErr.validationError rfl

end Robusta
